/-
Verification of the centrality-service core against its specification.

Shallow embedding of the Python sources:
  * app/services/centrality_algorithms.py (CentralityEngine)
  * app/core/centrality_algorithms.py    (CentralityAlgorithms)
  * app/api/v1/endpoints/centrality.py   (calculate endpoints)
  * app/core/celery_app.py               (batch task)
  * app/utils/network_converter.py       (density)
  * vercel-backend/api/centrality/index.py (vercel handler)

Scores are modelled over ℚ (Python floats carry exact small rationals in
every computation these theorems touch), except where real analysis is
required (matrix exponentials), where ℝ is used.
-/
import Mathlib

/-! ## Result formatter: CentralityEngine._scores_to_results

Python source (services/centrality_algorithms.py, lines 101-116):

    sorted_nodes = sorted(scores.items(), key=lambda x: x[1], reverse=True)
    results = []
    for rank, (node_id, score) in enumerate(sorted_nodes):
        percentile = (len(sorted_nodes) - rank) / len(sorted_nodes) * 100
        results.append(CentralityResult(node_id=node_id,
            centrality_score=score, rank=rank + 1, percentile=percentile))

`sorted(..., reverse=True)` is Python's stable sort with all comparisons
reversed; we model it as a stable insertion sort in which an element is
placed before exactly those later-arriving elements whose score is not
larger. The score map's items arrive in insertion order, modelled as the
input list order. -/

structure CentralityResult where
  node_id : String
  centrality_score : ℚ
  rank : ℕ
  percentile : ℚ
deriving DecidableEq, Repr

/-- One step of the stable descending sort: `x`, which precedes every element
of `l` in the original list, is placed before the first element whose score
is `≤` its own (so ties keep original order). -/
def insertDesc (x : String × ℚ) : List (String × ℚ) → List (String × ℚ)
  | [] => [x]
  | y :: ys => if y.2 ≤ x.2 then x :: y :: ys else y :: insertDesc x ys

/-- Stable sort by descending score, as `sorted(items, key=score, reverse=True)`. -/
def sortScoresDesc : List (String × ℚ) → List (String × ℚ)
  | [] => []
  | x :: xs => insertDesc x (sortScoresDesc xs)

/-- The `for rank, (node_id, score) in enumerate(sorted_nodes)` loop:
`n` is the total count, `i` the running 0-based rank. -/
def annotateRanks (n : ℕ) : ℕ → List (String × ℚ) → List CentralityResult
  | _, [] => []
  | i, x :: xs =>
    { node_id := x.1, centrality_score := x.2, rank := i + 1,
      percentile := ((n : ℚ) - i) / n * 100 } :: annotateRanks n (i + 1) xs

/-- `CentralityEngine._scores_to_results`. -/
def scores_to_results (scores : List (String × ℚ)) : List CentralityResult :=
  annotateRanks (sortScoresDesc scores).length 0 (sortScoresDesc scores)

/-! ## Algorithm enumeration and discovery

`CentralityType` (models/centrality.py, lines 10-26): a string-valued enum
of the 15 available algorithms. -/

inductive CentralityType where
  | degree | betweenness | closeness | eigenvector | katz | pagerank
  | bonacich_power | hits_hubs | hits_authorities | leverage | load
  | harmonic | subgraph | alpha | communicability_betweenness
deriving DecidableEq, Repr, Fintype

/-- The enum's string value (`CentralityType(str, Enum)` members). -/
def CentralityType.value : CentralityType → String
  | .degree => "degree"
  | .betweenness => "betweenness"
  | .closeness => "closeness"
  | .eigenvector => "eigenvector"
  | .katz => "katz"
  | .pagerank => "pagerank"
  | .bonacich_power => "bonacich_power"
  | .hits_hubs => "hits_hubs"
  | .hits_authorities => "hits_authorities"
  | .leverage => "leverage"
  | .load => "load"
  | .harmonic => "harmonic"
  | .subgraph => "subgraph"
  | .alpha => "alpha"
  | .communicability_betweenness => "communicability_betweenness"

/-- The dict returned by `CentralityEngine.get_algorithm_info`. -/
structure AlgorithmInfoRecord where
  name : String
  description : String
  complexity : String
  use_cases : List String
deriving DecidableEq, Repr

/-- `CentralityEngine.get_algorithm_info` (services/centrality_algorithms.py,
lines 291-331): a 5-entry curated dict, with `info.get(algorithm, default)`
falling back to a generic record whose name is `str(algorithm)`. -/
def get_algorithm_info (algorithm : CentralityType) : AlgorithmInfoRecord :=
  match algorithm with
  | .degree =>
    { name := "Degree Centrality",
      description := "Measures the number of connections a node has",
      complexity := "O(n)",
      use_cases := ["Identifying popular nodes", "Network connectivity analysis"] }
  | .betweenness =>
    { name := "Betweenness Centrality",
      description := "Measures how often a node lies on shortest paths",
      complexity := "O(n³)",
      use_cases := ["Finding bridges", "Traffic flow analysis"] }
  | .closeness =>
    { name := "Closeness Centrality",
      description := "Measures how close a node is to all other nodes",
      complexity := "O(n²)",
      use_cases := ["Information spreading", "Network efficiency"] }
  | .eigenvector =>
    { name := "Eigenvector Centrality",
      description := "Measures influence based on connections to influential nodes",
      complexity := "O(n²)",
      use_cases := ["Influence analysis", "Social network analysis"] }
  | .pagerank =>
    { name := "PageRank",
      description := "Google's algorithm for ranking web pages",
      complexity := "O(n²)",
      use_cases := ["Web ranking", "Importance scoring"] }
  | a =>
    { name := a.value,
      description := "Advanced centrality measure",
      complexity := "O(n²)",
      use_cases := ["Network analysis"] }

/-! ## Density

`NetworkConverter._calculate_density` (utils/network_converter.py, lines
168-178) versus the inline density of the `calculate` endpoint
(api/v1/endpoints/centrality.py, line 73):

    "density": len(network.edges) / (len(network.nodes) *
        (len(network.nodes) - 1) / 2) if network.nodes else 0

The endpoint form never branches on directedness and, for a non-empty
network, divides by `n*(n-1)/2`, which is `0.0` when `n = 1`
(a Python `ZeroDivisionError`, modelled as `none`).

The source compares `graph_type.lower() in ["directed", "digraph"]`; the
embedding takes `graph_type` already lowercased (the NetworkSchema type
strings the converter itself produces are lowercase). -/

def calculate_density (nodes edges : ℕ) (graph_type : String) : ℚ :=
  if nodes ≤ 1 then 0
  else
    let max_edges : ℚ :=
      if graph_type = "directed" ∨ graph_type = "digraph"
      then ((nodes * (nodes - 1) : ℕ) : ℚ)
      else ((nodes * (nodes - 1) : ℕ) : ℚ) / 2
    if max_edges > 0 then (edges : ℚ) / max_edges else 0

def endpoint_density (nodes edges : ℕ) : Option ℚ :=
  if nodes = 0 then some 0
  else
    let denom : ℚ := ((nodes * (nodes - 1) : ℕ) : ℚ) / 2
    if denom = 0 then none else some ((edges : ℚ) / denom)

/-! ## Size ceilings on the single and batch calculate endpoints

`calculate_centrality` (endpoints/centrality.py, lines 36-41) checks
`len(network.nodes) > 10000` before building the cache key, reading the
cache, or invoking the engine; `calculate_batch_centrality_endpoint`
(lines 96-101) checks `len(request.network.nodes) > 50000` before
enqueuing the Celery task. Each step after the guard is recorded as an
effect so "before any computation or cache access" is a statement about
the trace. -/

inductive EndpointEffect where
  | cacheGet | computeCall | cacheSet | enqueueTask
deriving DecidableEq, Repr

structure NetPayload where
  nodes : List String
  edges : List (String × String)
  directed : Bool

/-- The single-algorithm calculate path: size guard, then cache lookup,
then engine computation and cache write on a miss. `cached` is the cache's
answer for this request's key. -/
def calculate_endpoint (net : NetPayload) (cached : Option String) :
    Except String String × List EndpointEffect :=
  if net.nodes.length > 10000 then
    (.error "Network too large. Maximum 10,000 nodes allowed for real-time processing.", [])
  else
    match cached with
    | some r => (.ok r, [.cacheGet])
    | none => (.ok "analysis", [.cacheGet, .computeCall, .cacheSet])

/-- The batch calculate path: size guard, then task enqueue. -/
def batch_endpoint (net : NetPayload) : Except String String × List EndpointEffect :=
  if net.nodes.length > 50000 then
    (.error "Network too large. Maximum 50,000 nodes allowed for batch processing.", [])
  else
    (.ok "queued", [.enqueueTask])

/-! ## Batch task loop

`calculate_batch_centrality` (core/celery_app.py, lines 45-152): a loop
over the requested algorithms; each iteration is wrapped in its own
try/except which records either a success entry or a
`{"error": str(e), "status": "failed"}` entry into the `results` dict
and continues. The final return (lines 138-144) carries
`"status": "completed"` whenever the loop finishes; the database store
step is wrapped in a try/except of its own, so its failure cannot change
the returned value. -/

inductive BatchEntry where
  | ok (algorithm : String) (results : List CentralityResult)
  | failed (algorithm : String) (error : String)
deriving DecidableEq, Repr

/-- The entry written into `results[algorithm_str]` for one iteration's outcome. -/
def mkBatchEntry (a : String) : Except String (List CentralityResult) → BatchEntry
  | .ok r => .ok a r
  | .error e => .failed a e

/-- Python dict assignment `m[k] = v`: overwrite in place, or append a new key. -/
def insertEntry (m : List (String × BatchEntry)) (k : String) (v : BatchEntry) :
    List (String × BatchEntry) :=
  if m.any (fun p => p.1 = k) then
    m.map (fun p => if p.1 = k then (k, v) else p)
  else m ++ [(k, v)]

/-- Reading `results[a]` back out of the assoc-list model of the dict. -/
def dictLookup (m : List (String × BatchEntry)) (a : String) : Option BatchEntry :=
  match m with
  | [] => none
  | p :: rest => if a = p.1 then some p.2 else dictLookup rest a

/-- The per-algorithm loop (lines 77-116). `calcFn` gives the outcome of
the engine call for each algorithm name. -/
def run_batch_loop (calcFn : String → Except String (List CentralityResult)) :
    List String → List (String × BatchEntry) → List (String × BatchEntry)
  | [], acc => acc
  | a :: rest, acc =>
    run_batch_loop calcFn rest (insertEntry acc a (mkBatchEntry a (calcFn a)))

structure BatchTaskReturn where
  task_id : String
  status : String
  results : List (String × BatchEntry)
  total_algorithms : ℕ
  successful : ℕ
deriving DecidableEq, Repr

/-- Whether an entry counts in `successful` (`"error" not in r`). -/
def BatchEntry.isOk : BatchEntry → Bool
  | .ok .. => true
  | .failed .. => false

/-- `calculate_batch_centrality`'s return value. `storeOk` is whether the
database store step succeeded; its failure is caught (lines 135-136). -/
def calculate_batch_task (calcFn : String → Except String (List CentralityResult))
    (task_id : String) (algorithms : List String) (storeOk : Bool) : BatchTaskReturn :=
  let results := run_batch_loop calcFn algorithms []
  { task_id := task_id,
    status := "completed",
    results := results,
    total_algorithms := algorithms.length,
    successful := (results.filter (fun p => p.2.isOk)).length }

/-! ## Cache key fingerprint

`calculate_centrality` (endpoints/centrality.py, line 48) builds the cache
key as

    cache_key = f"centrality:\x7balgorithm\x7d:\x7bhash(str(network.dict()))\x7d"

`network.dict()` preserves the node and edge lists exactly as supplied, so
`str(...)` renders them in supplied order. We model the rendered text at the
token level: Python punctuation between tokens is fixed, so two renderings
are equal iff their token sequences are. A node dict renders its id, label,
attributes and position in order; an edge dict renders source, target,
weight, attributes; then the directed flag and metadata. -/

structure NetworkNodeData where
  id : String
  label : Option String := none
  attributes : List (String × String) := []
  position : Option (String × String) := none
deriving DecidableEq, Repr

structure NetworkEdgeData where
  source : String
  target : String
  weight : ℚ := 1
  attributes : List (String × String) := []
deriving DecidableEq, Repr

structure NetworkDataModel where
  nodes : List NetworkNodeData
  edges : List NetworkEdgeData
  directed : Bool := false
  metadata : List (String × String) := []
deriving DecidableEq, Repr

def optTok : Option String → String
  | none => "None"
  | some s => s

def dictToks (d : List (String × String)) : List String :=
  d.flatMap (fun p => [p.1, p.2])

def nodeToks (n : NetworkNodeData) : List String :=
  ["id", n.id, "label", optTok n.label] ++ dictToks n.attributes ++
    ["position", optTok (n.position.map (fun p => p.1 ++ "," ++ p.2))]

def edgeToks (e : NetworkEdgeData) : List String :=
  ["source", e.source, "target", e.target, "weight", toString e.weight] ++
    dictToks e.attributes

/-- The token sequence of `str(network.dict())`. -/
def serializeNetwork (net : NetworkDataModel) : List String :=
  ["nodes"] ++ net.nodes.flatMap nodeToks ++ ["edges"] ++ net.edges.flatMap edgeToks ++
    ["directed", toString net.directed, "metadata"] ++ dictToks net.metadata

/-- The cache key of the calculate endpoint: `pyHash` stands for the Python
built-in `hash` on the rendered text (process-seeded and unspecified, hence
a parameter). -/
def cacheKey (pyHash : List String → Int) (algorithm : String)
    (net : NetworkDataModel) : String :=
  "centrality:" ++ algorithm ++ ":" ++ toString (pyHash (serializeNetwork net))

/-- Two-node, one-edge undirected graph, nodes supplied as A then B. -/
def exNetAB : NetworkDataModel :=
  { nodes := [{ id := "A" }, { id := "B" }],
    edges := [{ source := "A", target := "B" }] }

/-- The same graph with the node list supplied as B then A. -/
def exNetBA : NetworkDataModel :=
  { nodes := [{ id := "B" }, { id := "A" }],
    edges := [{ source := "A", target := "B" }] }

/-! ## Undirected graph model for the engine kernels

The services engine converts `NetworkData` with `directed=False` into an
`nx.Graph` (services/centrality_algorithms.py, lines 79-99); these
definitions model that undirected graph. `neighbors` enumerates the
adjacent nodes in node order (each once, as in a simple graph; a self-loop
makes a node its own neighbor); `nxDegree` is `G.degree`, which counts a
self-loop twice. -/

structure SimpleNet where
  nodes : List String
  edges : List (String × String)
deriving DecidableEq, Repr

def isAdjacent (g : SimpleNet) (u v : String) : Bool :=
  g.edges.any (fun e => (e.1 = u ∧ e.2 = v) ∨ (e.1 = v ∧ e.2 = u))

def neighbors (g : SimpleNet) (u : String) : List String :=
  g.nodes.filter (fun v => isAdjacent g u v)

def nxDegree (g : SimpleNet) (v : String) : ℕ :=
  (neighbors g v).length + (if g.edges.any (fun e => e.1 = v ∧ e.2 = v) then 1 else 0)

/-! ## Leverage centrality

`CentralityEngine._leverage_centrality` (services/centrality_algorithms.py,
lines 194-214):

    neighbors = list(G.neighbors(node))
    if len(neighbors) == 0: leverage[node] = 0.0; continue
    node_degree = len(neighbors)
    for neighbor in neighbors:
        neighbor_degree = G.degree(neighbor)
        if neighbor_degree > 0:
            leverage_sum += (node_degree - neighbor_degree) / (node_degree + neighbor_degree)
    leverage[node] = leverage_sum / node_degree

Note `node_degree` is `len(neighbors)` while `neighbor_degree` is the nx
degree; the `params.normalized` flag is never consulted. -/

def leverage_centrality (g : SimpleNet) (u : String) : ℚ :=
  let nbrs := neighbors g u
  if nbrs.length = 0 then 0
  else
    let node_degree : ℚ := nbrs.length
    let leverage_sum := nbrs.foldl (fun s v =>
      let dv : ℚ := nxDegree g v
      if dv > 0 then s + (node_degree - dv) / (node_degree + dv) else s) 0
    leverage_sum / node_degree

/-- `CentralityAlgorithms.leverage_centrality` raw score (core/
centrality_algorithms.py, lines 420-435): zero for degree ≤ 1, otherwise
`(k_i - mean neighbor degree) / (k_i + mean neighbor degree)` with nx
degrees. -/
def core_leverage_raw (g : SimpleNet) (u : String) : ℚ :=
  let nbrs := neighbors g u
  if nbrs.length ≤ 1 then 0
  else
    let node_degree : ℚ := nxDegree g u
    let avg_neighbor_degree : ℚ := (nbrs.map (fun v => (nxDegree g v : ℚ))).sum / nbrs.length
    (node_degree - avg_neighbor_degree) / (node_degree + avg_neighbor_degree)

/-- Python `min` over a value list (0 never used: callers guard non-empty). -/
def pyMin : List ℚ → ℚ
  | [] => 0
  | x :: xs => xs.foldl min x

def pyMax : List ℚ → ℚ
  | [] => 0
  | x :: xs => xs.foldl max x

def core_leverage_vals (g : SimpleNet) : List ℚ :=
  g.nodes.map (fun u => core_leverage_raw g u)

/-- `CentralityAlgorithms.leverage_centrality` (lines 408-451): raw scores
per node, then min-max rescaled when `normalize` and `max_val > min_val`. -/
def core_leverage (g : SimpleNet) (normalize : Bool) : List (String × ℚ) :=
  let centrality := g.nodes.map (fun u => (u, core_leverage_raw g u))
  if normalize then
    let vals := centrality.map (fun p => p.2)
    let min_val := pyMin vals
    let max_val := pyMax vals
    if max_val > min_val then
      centrality.map (fun p => (p.1, (p.2 - min_val) / (max_val - min_val)))
    else centrality
  else centrality

/-- The path graph A - B - C. -/
def pathABC : SimpleNet := ⟨["A", "B", "C"], [("A", "B"), ("B", "C")]⟩

/-! ## Algorithm dispatch

The engine converts an identifier string with `CentralityType(algorithm_str)`
(core/celery_app.py line 79) and looks the member up in its 15-entry
dispatch dict (services/centrality_algorithms.py lines 27-43, 59-62); both
an unknown string and a missing dict entry raise a distinct ValueError
naming the algorithm. The vercel handler (vercel-backend/api/centrality/
index.py lines 41-55) instead matches five known names and silently falls
back to degree centrality for anything else. -/

def centralityTypeOfString (s : String) : Option CentralityType :=
  (List.filter (fun a : CentralityType => a.value = s)
    [CentralityType.degree, .betweenness, .closeness, .eigenvector, .katz, .pagerank,
     .bonacich_power, .hits_hubs, .hits_authorities, .leverage, .load,
     .harmonic, .subgraph, .alpha, .communicability_betweenness]).head?

inductive CentralityError where
  | unknownAlgorithm (msg : String)
deriving DecidableEq, Repr

/-- The engine calculate path for a string identifier: enum conversion plus
dispatch lookup; `runAlgo` is the per-kind kernel. An identifier outside
the 15 values raises the distinct ValueError, never a substitute result. -/
def engine_calculate (runAlgo : CentralityType → List (String × ℚ))
    (algorithm : String) : Except CentralityError (List (String × ℚ)) :=
  match centralityTypeOfString algorithm with
  | some a => .ok (runAlgo a)
  | none => .error (.unknownAlgorithm ("Algorithm " ++ algorithm ++ " not implemented"))

/-- `nx.degree_centrality`: degree divided by n - 1. -/
def vercel_degree_scores (g : SimpleNet) : List (String × ℚ) :=
  g.nodes.map (fun u => (u, (nxDegree g u : ℚ) / ((g.nodes.length : ℚ) - 1)))

structure VercelOutcome where
  status : String
  algorithm : String
  scores : List (String × ℚ)
deriving DecidableEq, Repr

/-- The vercel do_POST dispatch chain; `kernels` stands for the library
calls of the non-degree branches (irrelevant to the final else branch). -/
def vercel_calculate (kernels : String → SimpleNet → List (String × ℚ))
    (g : SimpleNet) (algorithm : String) : VercelOutcome :=
  if algorithm = "degree" then ⟨"success", algorithm, vercel_degree_scores g⟩
  else if algorithm = "betweenness" then ⟨"success", algorithm, kernels "betweenness" g⟩
  else if algorithm = "closeness" then ⟨"success", algorithm, kernels "closeness" g⟩
  else if algorithm = "eigenvector" then ⟨"success", algorithm, kernels "eigenvector" g⟩
  else if algorithm = "pagerank" then ⟨"success", algorithm, kernels "pagerank" g⟩
  else ⟨"success", algorithm, vercel_degree_scores g⟩

/-! ## PageRank

`CentralityEngine._pagerank_centrality` (services/centrality_algorithms.py,
lines 161-167) returns `nx.pagerank(G, alpha, max_iter, tol)` directly — the
`params.normalized` flag is accepted but never consulted.
`CentralityAlgorithms.pagerank_centrality` (core/centrality_algorithms.py,
lines 234-272) calls the same `nx.pagerank` and then, when `normalize`,
divides every score by the maximum one.

`nx.pagerank` is library code; it is embedded here as the standard damped
power iteration that library implements: start uniform, redistribute rank
along out-weight-normalized edges with damping `alpha`, spread dangling
mass and the teleport term uniformly, and stop when the L1 change drops
below `n * tol` (raising PowerIterationFailedConvergence — `none` — after
`max_iter` steps). -/

def outWeight (n : ℕ) (W : Fin n → Fin n → ℚ) (u : Fin n) : ℚ := ∑ v, W u v

def pagerankStep (n : ℕ) (W : Fin n → Fin n → ℚ) (alpha : ℚ) (x : Fin n → ℚ) :
    Fin n → ℚ := fun v =>
  alpha * (∑ u, x u * (if outWeight n W u = 0 then 0 else W u v / outWeight n W u))
    + alpha * (∑ u, if outWeight n W u = 0 then x u else 0) * (1 / (n : ℚ))
    + (1 - alpha) * (1 / (n : ℚ))

def pagerankLoop (n : ℕ) (W : Fin n → Fin n → ℚ) (alpha tol : ℚ) :
    ℕ → (Fin n → ℚ) → Option (Fin n → ℚ)
  | 0, _ => none
  | fuel + 1, x =>
    let x2 := pagerankStep n W alpha x
    if (∑ v, |x2 v - x v|) < n * tol then some x2
    else pagerankLoop n W alpha tol fuel x2

def pagerank (n : ℕ) (W : Fin n → Fin n → ℚ) (alpha : ℚ) (max_iter : ℕ) (tol : ℚ) :
    Option (Fin n → ℚ) :=
  pagerankLoop n W alpha tol max_iter (fun _ => 1 / (n : ℚ))

/-- The core module normalization: `max_val = max(values) if centrality else 1;
if max_val > 0: divide every score by it`. -/
def core_max_rescale (scores : List ℚ) : List ℚ :=
  let max_val := match scores with
    | [] => 1
    | _ => pyMax scores
  if max_val > 0 then scores.map (fun v => v / max_val) else scores

/-- `CentralityAlgorithms.pagerank_centrality`, scores listed in node order. -/
def core_pagerank_centrality (n : ℕ) (W : Fin n → Fin n → ℚ) (normalize : Bool)
    (alpha : ℚ) (max_iter : ℕ) (tol : ℚ) : Option (List ℚ) :=
  (pagerank n W alpha max_iter tol).map (fun x =>
    let vals := (List.finRange n).map x
    if normalize then core_max_rescale vals else vals)

/-- `CentralityEngine._pagerank_centrality`: the raw library result; the
`normalized` parameter is received and ignored. -/
def services_pagerank_centrality (n : ℕ) (W : Fin n → Fin n → ℚ)
    (params_normalized : Bool) (alpha : ℚ) (max_iter : ℕ) (tol : ℚ) : Option (List ℚ) :=
  (pagerank n W alpha max_iter tol).map (fun x => (List.finRange n).map x)

/-- The weighted adjacency of the 2-node single-edge undirected graph. -/
def W2 : Fin 2 → Fin 2 → ℚ := fun i j => if i = j then 0 else 1

/-! ## Subgraph centrality

`CentralityEngine._subgraph_centrality` (services/centrality_algorithms.py,
lines 225-244):

    adj_matrix = nx.to_numpy_array(G)
    exp_adj = np.exp(adj_matrix)        # NOTE: element-wise exponential
    centrality[node] = exp_adj[i, i]

`np.exp` is the element-wise exponential, so the score of node i is
exp(A[i,i]) — identically 1 on any graph without self-loops. Subgraph
centrality (the spec, the core module via `nx.subgraph_centrality`, and the
literature) is the diagonal of the matrix exponential `expm(A)` instead. -/

noncomputable def services_subgraph_scores (n : ℕ) (A : Matrix (Fin n) (Fin n) ℝ) :
    Fin n → ℝ := fun i => Real.exp (A i i)

/-- Adjacency matrix of the 2-node single-edge undirected graph. -/
def A2 : Matrix (Fin 2) (Fin 2) ℝ := !![0, 1; 1, 0]

/-- Eigenvector basis of `A2`. -/
def U2 : Matrix (Fin 2) (Fin 2) ℝ := !![1, 1; 1, -1]

/-- Eigenvalue diagonal of `A2`. -/
def D2 : Matrix (Fin 2) (Fin 2) ℝ := Matrix.diagonal ![1, -1]

theorem insertDesc_length (x : String × ℚ) (l : List (String × ℚ)) :
    (insertDesc x l).length = l.length + 1 := by
  induction l with
  | nil => rfl
  | cons y ys ih =>
    simp only [insertDesc]
    split <;> simp [ih]

theorem sortScoresDesc_length (l : List (String × ℚ)) :
    (sortScoresDesc l).length = l.length := by
  induction l with
  | nil => rfl
  | cons x xs ih => simp [sortScoresDesc, insertDesc_length, ih]

theorem mem_insertDesc {x b : String × ℚ} {l : List (String × ℚ)} :
    b ∈ insertDesc x l ↔ b = x ∨ b ∈ l := by
  induction l with
  | nil => simp [insertDesc]
  | cons y ys ih =>
    simp only [insertDesc]
    split
    · simp
    · simp only [List.mem_cons, ih]
      tauto

theorem insertDesc_sorted (x : String × ℚ) (l : List (String × ℚ))
    (h : l.Sorted (fun a b => b.2 ≤ a.2)) :
    (insertDesc x l).Sorted (fun a b => b.2 ≤ a.2) := by
  induction l with
  | nil => simp [insertDesc]
  | cons y ys ih =>
    rw [List.sorted_cons] at h
    simp only [insertDesc]
    split
    · rename_i hyx
      refine List.sorted_cons.2 ⟨?_, List.sorted_cons.2 h⟩
      intro b hb
      rcases List.mem_cons.1 hb with hb | hb
      · simpa [hb] using hyx
      · exact le_trans (h.1 b hb) hyx
    · rename_i hyx
      refine List.sorted_cons.2 ⟨?_, ih h.2⟩
      intro b hb
      rcases mem_insertDesc.1 hb with hb | hb
      · rw [hb]; exact le_of_not_le hyx
      · exact h.1 b hb

theorem sortScoresDesc_sorted (l : List (String × ℚ)) :
    (sortScoresDesc l).Sorted (fun a b => b.2 ≤ a.2) := by
  induction l with
  | nil => simp [sortScoresDesc]
  | cons x xs ih => exact insertDesc_sorted x _ ih

/-- Filtering on a fixed score commutes with the stable insertion step:
elements skipped over by `insertDesc` all have a strictly larger score. -/
theorem insertDesc_filter (x : String × ℚ) (l : List (String × ℚ)) (q : ℚ) :
    (insertDesc x l).filter (fun p => p.2 = q)
      = if x.2 = q then x :: l.filter (fun p => p.2 = q)
        else l.filter (fun p => p.2 = q) := by
  induction l with
  | nil =>
    simp only [insertDesc, List.filter_cons, List.filter_nil]
    by_cases hx : x.2 = q <;> simp [hx]
  | cons y ys ih =>
    simp only [insertDesc]
    by_cases hyx : y.2 ≤ x.2
    · simp only [if_pos hyx]
      by_cases hx : x.2 = q <;> simp [List.filter, hx]
    · have hyq : ¬ y.2 = q ∨ ¬ x.2 = q := by
        by_cases hx : x.2 = q
        · left; intro hy; exact hyx (by rw [hy, hx])
        · right; exact hx
      simp only [if_neg hyx]
      by_cases hy : y.2 = q
      · have hx : ¬ x.2 = q := by
          rcases hyq with h | h
          · exact absurd hy h
          · exact h
        simp [List.filter, hy, hx, ih]
      · by_cases hx : x.2 = q <;> simp [List.filter, hy, hx, ih]

theorem sortScoresDesc_filter (l : List (String × ℚ)) (q : ℚ) :
    (sortScoresDesc l).filter (fun p => p.2 = q)
      = l.filter (fun p => p.2 = q) := by
  induction l with
  | nil => rfl
  | cons x xs ih =>
    simp only [sortScoresDesc, insertDesc_filter, ih]
    by_cases hx : x.2 = q <;> simp [List.filter, hx]

theorem annotateRanks_map_rank (n : ℕ) (l : List (String × ℚ)) (i : ℕ) :
    (annotateRanks n i l).map (·.rank) = List.range' (i + 1) l.length := by
  induction l generalizing i with
  | nil => rfl
  | cons x xs ih => simp [annotateRanks, List.range', ih]

theorem annotateRanks_percentile (n : ℕ) (l : List (String × ℚ)) (i : ℕ)
    (r : CentralityResult) (hr : r ∈ annotateRanks n i l) :
    r.percentile = ((n : ℚ) - r.rank + 1) / n * 100 := by
  induction l generalizing i with
  | nil => simp [annotateRanks] at hr
  | cons x xs ih =>
    simp only [annotateRanks, List.mem_cons] at hr
    rcases hr with hr | hr
    · rw [hr]; push_cast; ring_nf
    · exact ih (i + 1) hr

theorem annotateRanks_filter_map (n : ℕ) (l : List (String × ℚ)) (i : ℕ) (q : ℚ) :
    ((annotateRanks n i l).filter (fun r => r.centrality_score = q)).map (·.node_id)
      = (l.filter (fun p => p.2 = q)).map (·.1) := by
  induction l generalizing i with
  | nil => rfl
  | cons x xs ih =>
    by_cases hx : x.2 = q <;> simp [annotateRanks, List.filter, hx, ih]

theorem mem_annotateRanks_score {n i : ℕ} {l : List (String × ℚ)}
    {b : CentralityResult} (hb : b ∈ annotateRanks n i l) :
    ∃ p ∈ l, b.centrality_score = p.2 := by
  induction l generalizing i with
  | nil => simp [annotateRanks] at hb
  | cons x xs ih =>
    simp only [annotateRanks, List.mem_cons] at hb
    rcases hb with hb | hb
    · exact ⟨x, by simp, by rw [hb]⟩
    · rcases ih hb with ⟨p, hp, hps⟩
      exact ⟨p, List.mem_cons_of_mem x hp, hps⟩

theorem annotateRanks_sorted (n : ℕ) (l : List (String × ℚ)) (i : ℕ)
    (h : l.Sorted (fun a b => b.2 ≤ a.2)) :
    (annotateRanks n i l).Sorted
      (fun a b => b.centrality_score ≤ a.centrality_score) := by
  induction l generalizing i with
  | nil => simp [annotateRanks]
  | cons x xs ih =>
    rw [List.sorted_cons] at h
    refine List.sorted_cons.2 ⟨?_, ih (i + 1) h.2⟩
    intro b hb
    rcases mem_annotateRanks_score hb with ⟨p, hp, hps⟩
    simp only [annotateRanks]
    rw [hps]
    exact h.1 p hp

/-- C2: for every non-empty score map, `_scores_to_results` returns a sequence
sorted by descending score, with 1-based ranks 1..N, percentile
(N − rank + 1)/N × 100, and ties kept in the score map's insertion order. -/
theorem scores_to_results_spec (scores : List (String × ℚ)) (h : scores ≠ []) :
    (scores_to_results scores).Sorted
        (fun a b => b.centrality_score ≤ a.centrality_score) ∧
    (scores_to_results scores).map (·.rank) = List.range' 1 scores.length ∧
    (∀ r ∈ scores_to_results scores,
      r.percentile = ((scores.length : ℚ) - r.rank + 1) / scores.length * 100) ∧
    (∀ q : ℚ, ((scores_to_results scores).filter
        (fun r => r.centrality_score = q)).map (·.node_id)
      = (scores.filter (fun p => p.2 = q)).map (·.1)) := by
  refine ⟨?_, ?_, ?_, ?_⟩
  · exact annotateRanks_sorted _ _ 0 (sortScoresDesc_sorted scores)
  · rw [scores_to_results, annotateRanks_map_rank, sortScoresDesc_length]
  · intro r hr
    have := annotateRanks_percentile _ _ 0 r hr
    rwa [sortScoresDesc_length] at this
  · intro q
    rw [scores_to_results, annotateRanks_filter_map, sortScoresDesc_filter]

/-- Witness for C2 at the concrete score map B↦2, A↦2, C↦1
(a tie between B and A, kept in insertion order). -/
theorem scores_to_results_spec_witness :
    ([("B", (2 : ℚ)), ("A", 2), ("C", 1)] ≠ []) ∧
    ((scores_to_results [("B", (2 : ℚ)), ("A", 2), ("C", 1)]).Sorted
        (fun a b => b.centrality_score ≤ a.centrality_score) ∧
    (scores_to_results [("B", (2 : ℚ)), ("A", 2), ("C", 1)]).map (·.rank)
        = List.range' 1 ([("B", (2 : ℚ)), ("A", 2), ("C", 1)] : List (String × ℚ)).length ∧
    (∀ r ∈ scores_to_results [("B", (2 : ℚ)), ("A", 2), ("C", 1)],
      r.percentile = ((([("B", (2 : ℚ)), ("A", 2), ("C", 1)] : List (String × ℚ)).length : ℚ)
          - r.rank + 1) / ([("B", (2 : ℚ)), ("A", 2), ("C", 1)] : List (String × ℚ)).length * 100) ∧
    (∀ q : ℚ, ((scores_to_results [("B", (2 : ℚ)), ("A", 2), ("C", 1)]).filter
        (fun r => r.centrality_score = q)).map (·.node_id)
      = (([("B", (2 : ℚ)), ("A", 2), ("C", 1)] : List (String × ℚ)).filter
          (fun p => p.2 = q)).map (·.1))) :=
  ⟨by decide, scores_to_results_spec [("B", (2 : ℚ)), ("A", 2), ("C", 1)] (by decide)⟩

/-- C10: every one of the 15 algorithm kinds gets an info record with
non-empty name, description, complexity and use-case list (the function is
total, so it never raises), and the 10 kinds outside the curated five get
the one generic default record with complexity "O(n²)". -/
theorem get_algorithm_info_spec :
    ∀ a : CentralityType,
      (get_algorithm_info a).name ≠ "" ∧
      (get_algorithm_info a).description ≠ "" ∧
      (get_algorithm_info a).complexity ≠ "" ∧
      (get_algorithm_info a).use_cases ≠ [] ∧
      (a ∉ [CentralityType.degree, CentralityType.betweenness, CentralityType.closeness,
            CentralityType.eigenvector, CentralityType.pagerank] →
        get_algorithm_info a =
          { name := a.value,
            description := "Advanced centrality measure",
            complexity := "O(n²)",
            use_cases := ["Network analysis"] }) := by
  decide

/-- Witness for C10 at the non-curated kind `katz`. -/
theorem get_algorithm_info_spec_witness :
    (CentralityType.katz ∉ [CentralityType.degree, CentralityType.betweenness,
        CentralityType.closeness, CentralityType.eigenvector, CentralityType.pagerank]) ∧
    get_algorithm_info CentralityType.katz =
      { name := CentralityType.katz.value,
        description := "Advanced centrality measure",
        complexity := "O(n²)",
        use_cases := ["Network analysis"] } :=
  ⟨by decide, (get_algorithm_info_spec CentralityType.katz).2.2.2.2 (by decide)⟩

/-- C9: the `calculate` endpoint's inline density is not the claimed total,
directedness-aware formula: it raises ZeroDivisionError (`none`) on a
single-node graph instead of returning 0, and it applies the undirected
formula to directed graphs (2 nodes, 2 directed edges: endpoint gives 2,
the directed formula — implemented correctly by
`NetworkConverter._calculate_density` — gives 1). -/
theorem density_code_bug :
    endpoint_density 1 0 = none ∧
    calculate_density 1 0 "undirected" = 0 ∧
    calculate_density 1 0 "directed" = 0 ∧
    calculate_density 0 0 "directed" = 0 ∧
    endpoint_density 2 2 = some 2 ∧
    calculate_density 2 2 "directed" = 1 ∧
    calculate_density 5 10 "directed" = 1/2 ∧
    calculate_density 5 10 "undirected" = 1 := by
  refine ⟨?_, ?_, ?_, ?_, ?_, ?_, ?_, ?_⟩ <;>
    simp [calculate_density, endpoint_density] <;> norm_num

/-- C6: a graph over the single-request ceiling (10,000 nodes) fails with
the size error and an empty effect trace — no cache access and no
computation happened; the batch path enforces its 50,000 ceiling the same
way before enqueuing. -/
theorem size_ceiling_spec (net : NetPayload) (cached : Option String) :
    (net.nodes.length > 10000 →
      calculate_endpoint net cached =
        (.error "Network too large. Maximum 10,000 nodes allowed for real-time processing.", [])) ∧
    (net.nodes.length > 50000 →
      batch_endpoint net =
        (.error "Network too large. Maximum 50,000 nodes allowed for batch processing.", [])) := by
  constructor
  · intro h
    simp [calculate_endpoint, if_pos h]
  · intro h
    simp [batch_endpoint, if_pos h]

set_option maxRecDepth 100000 in
/-- Witness for C6: a 10,001-node graph on the single path and a
50,001-node graph on the batch path. -/
theorem size_ceiling_spec_witness :
    ((List.replicate 10001 "x").length > 10000 →
      calculate_endpoint ⟨List.replicate 10001 "x", [], false⟩ none =
        (.error "Network too large. Maximum 10,000 nodes allowed for real-time processing.", [])) ∧
    ((List.replicate 50001 "x").length > 50000 →
      batch_endpoint ⟨List.replicate 50001 "x", [], false⟩ =
        (.error "Network too large. Maximum 50,000 nodes allowed for batch processing.", [])) ∧
    (List.replicate 10001 "x").length > 10000 ∧
    (List.replicate 50001 "x").length > 50000 := by
  refine ⟨(size_ceiling_spec ⟨List.replicate 10001 "x", [], false⟩ none).1, ?_, ?_, ?_⟩
  · intro h
    exact (size_ceiling_spec ⟨List.replicate 50001 "x", [], false⟩ none).2 h
  · rw [List.length_replicate]
    norm_num
  · rw [List.length_replicate]
    norm_num

theorem dictLookup_map_overwrite_self (ps : List (String × BatchEntry)) (k : String)
    (v : BatchEntry) (hm : ps.any (fun p => p.1 = k) = true) :
    dictLookup (ps.map (fun p => if p.1 = k then (k, v) else p)) k = some v := by
  induction ps with
  | nil => simp at hm
  | cons p ps ih =>
    by_cases hp : p.1 = k
    · simp [dictLookup, hp]
    · simp only [List.any_cons, decide_eq_true_eq, Bool.or_eq_true] at hm
      rcases hm with hm | hm
      · exact absurd hm hp
      · have hkp : ¬ k = p.1 := fun h => hp h.symm
        simp [dictLookup, hp, hkp, ih hm]

theorem dictLookup_map_overwrite_ne (ps : List (String × BatchEntry)) (k a : String)
    (v : BatchEntry) (h : a ≠ k) :
    dictLookup (ps.map (fun p => if p.1 = k then (k, v) else p)) a = dictLookup ps a := by
  induction ps with
  | nil => simp
  | cons p ps ih =>
    by_cases hp : p.1 = k
    · have hap : ¬ a = p.1 := fun hh => h (hh.trans hp)
      simp [dictLookup, hp, h, hap, ih]
    · by_cases hap : a = p.1
      · simp [dictLookup, hp, hap]
      · simp [dictLookup, hp, hap, ih]

theorem dictLookup_append_single_self (ps : List (String × BatchEntry)) (k : String)
    (v : BatchEntry) (hm : ps.any (fun p => p.1 = k) = false) :
    dictLookup (ps ++ [(k, v)]) k = some v := by
  induction ps with
  | nil => simp [dictLookup]
  | cons p ps ih =>
    simp only [List.any_cons, Bool.or_eq_false_iff, decide_eq_false_iff_not] at hm
    have hkp : ¬ k = p.1 := fun h => hm.1 h.symm
    simp [dictLookup, hkp, ih hm.2]

theorem dictLookup_append_single_ne (ps : List (String × BatchEntry)) (k a : String)
    (v : BatchEntry) (h : a ≠ k) :
    dictLookup (ps ++ [(k, v)]) a = dictLookup ps a := by
  induction ps with
  | nil => simp [dictLookup, h]
  | cons p ps ih =>
    by_cases hap : a = p.1
    · simp [dictLookup, hap]
    · simp [dictLookup, hap, ih]

theorem dictLookup_insertEntry_self (m : List (String × BatchEntry)) (k : String)
    (v : BatchEntry) : dictLookup (insertEntry m k v) k = some v := by
  unfold insertEntry
  by_cases hm : m.any (fun p => p.1 = k)
  · rw [if_pos hm]; exact dictLookup_map_overwrite_self m k v hm
  · rw [if_neg hm]
    exact dictLookup_append_single_self m k v (Bool.eq_false_iff.mpr hm)

theorem dictLookup_insertEntry_ne (m : List (String × BatchEntry)) (k a : String)
    (v : BatchEntry) (h : a ≠ k) :
    dictLookup (insertEntry m k v) a = dictLookup m a := by
  unfold insertEntry
  by_cases hm : m.any (fun p => p.1 = k)
  · rw [if_pos hm]; exact dictLookup_map_overwrite_ne m k a v h
  · rw [if_neg hm]; exact dictLookup_append_single_ne m k a v h

theorem run_batch_loop_lookup (calcFn : String → Except String (List CentralityResult))
    (algorithms : List String) (acc : List (String × BatchEntry)) (a : String)
    (h : a ∈ algorithms ∨ dictLookup acc a = some (mkBatchEntry a (calcFn a))) :
    dictLookup (run_batch_loop calcFn algorithms acc) a
      = some (mkBatchEntry a (calcFn a)) := by
  induction algorithms generalizing acc with
  | nil =>
    rcases h with h | h
    · simp at h
    · simpa [run_batch_loop] using h
  | cons b rest ih =>
    simp only [run_batch_loop]
    by_cases hab : a = b
    · subst hab
      exact ih _ (Or.inr (dictLookup_insertEntry_self acc a (mkBatchEntry a (calcFn a))))
    · rcases h with h | h
      · rcases List.mem_cons.1 h with h1 | h1
        · exact absurd h1 hab
        · exact ih _ (Or.inl h1)
      · refine ih _ (Or.inr ?_)
        rw [dictLookup_insertEntry_ne acc b a _ hab]
        exact h

/-- C7: the batch task records the outcome of each algorithm independently —
the returned record has status "completed" for every possible sequence of
per-algorithm outcomes (including all-failed), the entry of each requested
algorithm is exactly its own outcome (a failure entry for an error, a result
entry for a success, unaffected by the other algorithms), and a failure of
the database store step does not change the returned value. -/
theorem batch_task_spec (calcFn : String → Except String (List CentralityResult))
    (task_id : String) (algorithms : List String) (storeOk : Bool)
    (a : String) (ha : a ∈ algorithms) :
    (calculate_batch_task calcFn task_id algorithms storeOk).status = "completed" ∧
    dictLookup (calculate_batch_task calcFn task_id algorithms storeOk).results a
      = some (mkBatchEntry a (calcFn a)) ∧
    calculate_batch_task calcFn task_id algorithms storeOk
      = calculate_batch_task calcFn task_id algorithms (!storeOk) := by
  refine ⟨rfl, ?_, rfl⟩
  exact run_batch_loop_lookup calcFn algorithms [] a (Or.inl ha)

/-- Witness for C7: a two-algorithm batch where the second algorithm fails;
the task still completes and the failing entry records the error. -/
theorem batch_task_spec_witness :
    ("leverage" ∈ ["degree", "leverage"]) ∧
    ((calculate_batch_task
        (fun s => if s = "degree" then .ok [] else .error "boom")
        "task-1" ["degree", "leverage"] true).status = "completed" ∧
    dictLookup (calculate_batch_task
        (fun s => if s = "degree" then .ok [] else .error "boom")
        "task-1" ["degree", "leverage"] true).results "leverage"
      = some (mkBatchEntry "leverage"
          ((fun s : String => if s = "degree" then .ok [] else .error "boom") "leverage")) ∧
    calculate_batch_task (fun s => if s = "degree" then .ok [] else .error "boom")
        "task-1" ["degree", "leverage"] true
      = calculate_batch_task (fun s => if s = "degree" then .ok [] else .error "boom")
        "task-1" ["degree", "leverage"] (!true)) :=
  ⟨by decide, batch_task_spec (fun s => if s = "degree" then .ok [] else .error "boom")
      "task-1" ["degree", "leverage"] true "leverage" (by decide)⟩

/-- C1: the cache key is built from `hash(str(network.dict()))`, and
`str(network.dict())` renders node lists in supplied order: the same graph
submitted with its two nodes in the two different orders serializes to two
different texts (so the keys agree only on a hash collision, and Python
seeds its string hash per process besides). -/
theorem fingerprint_code_bug :
    exNetAB.nodes ≠ exNetBA.nodes ∧
    exNetAB.nodes.Perm exNetBA.nodes ∧
    exNetAB.edges = exNetBA.edges ∧
    exNetAB.directed = exNetBA.directed ∧
    serializeNetwork exNetAB ≠ serializeNetwork exNetBA := by
  refine ⟨by decide, ?_, by decide, by decide, by decide⟩
  decide

/-- C5 counterexample: the vercel handler answers an algorithm identifier
outside its enumerated set with a successful degree-centrality response —
a silent substitution, not an UnknownAlgorithm error. -/
theorem vercel_unknown_algorithm_counterexample :
    vercel_calculate (fun _ _ => []) pathABC "fake_measure" =
      ⟨"success", "fake_measure", vercel_degree_scores pathABC⟩ ∧
    (vercel_calculate (fun _ _ => []) pathABC "fake_measure").scores =
      (vercel_calculate (fun _ _ => []) pathABC "degree").scores :=
  ⟨rfl, rfl⟩

/-- C5 amended: the service engine rejects an identifier outside the 15
enumerated kinds with its distinct "Algorithm ... not implemented"
ValueError and never substitutes; the vercel handler instead silently
substitutes degree centrality for identifiers outside its five branches. -/
theorem unknown_algorithm_amended
    (runAlgo : CentralityType → List (String × ℚ))
    (kernels : String → SimpleNet → List (String × ℚ))
    (g : SimpleNet) (s : String)
    (hs : centralityTypeOfString s = none)
    (hs5 : s ∉ ["degree", "betweenness", "closeness", "eigenvector", "pagerank"]) :
    engine_calculate runAlgo s =
      .error (.unknownAlgorithm ("Algorithm " ++ s ++ " not implemented")) ∧
    vercel_calculate kernels g s = ⟨"success", s, vercel_degree_scores g⟩ := by
  constructor
  · simp [engine_calculate, hs]
  · simp only [List.mem_cons, List.mem_singleton, not_or] at hs5
    obtain ⟨h1, h2, h3, h4, h5, -⟩ := hs5
    simp [vercel_calculate, h1, h2, h3, h4, h5]

/-- Witness for the C5 amended theorem at the identifier "fake_measure". -/
theorem unknown_algorithm_amended_witness :
    (centralityTypeOfString "fake_measure" = none) ∧
    ("fake_measure" ∉ ["degree", "betweenness", "closeness", "eigenvector", "pagerank"]) ∧
    (engine_calculate (fun _ => []) "fake_measure" =
      .error (.unknownAlgorithm ("Algorithm " ++ "fake_measure" ++ " not implemented")) ∧
    vercel_calculate (fun _ _ => []) pathABC "fake_measure" =
      ⟨"success", "fake_measure", vercel_degree_scores pathABC⟩) :=
  ⟨by decide, by decide,
    unknown_algorithm_amended (fun _ => []) (fun _ _ => []) pathABC "fake_measure"
      (by decide) (by decide)⟩

theorem isAdjacent_symm (g : SimpleNet) (u v : String) :
    isAdjacent g u v = isAdjacent g v u := by
  unfold isAdjacent
  congr 1
  funext e
  exact decide_eq_decide.mpr (by tauto)

theorem mem_neighbors_symm (g : SimpleNet) (u v : String)
    (hu : u ∈ g.nodes) (hv : v ∈ neighbors g u) : u ∈ neighbors g v := by
  unfold neighbors at hv ⊢
  rw [List.mem_filter] at hv ⊢
  exact ⟨hu, by rw [isAdjacent_symm]; exact hv.2⟩

theorem nxDegree_pos_of_mem_neighbors (g : SimpleNet) (u v : String)
    (hu : u ∈ g.nodes) (hv : v ∈ neighbors g u) : 0 < nxDegree g v := by
  have h1 : u ∈ neighbors g v := mem_neighbors_symm g u v hu hv
  have h2 : 0 < (neighbors g v).length := List.length_pos.2 (fun h => by simp [h] at h1)
  unfold nxDegree
  omega

theorem leverage_foldl_sum (g : SimpleNet) (d : ℚ) (l : List String)
    (h : ∀ v ∈ l, 0 < nxDegree g v) (init : ℚ) :
    l.foldl (fun s v =>
        if ((nxDegree g v : ℚ)) > 0
        then s + (d - (nxDegree g v : ℚ)) / (d + (nxDegree g v : ℚ)) else s) init
      = init + (l.map (fun v =>
          (d - (nxDegree g v : ℚ)) / (d + (nxDegree g v : ℚ)))).sum := by
  induction l generalizing init with
  | nil => simp
  | cons v vs ih =>
    have hv : (0 : ℚ) < (nxDegree g v : ℚ) :=
      Nat.cast_pos.2 (h v (List.mem_cons_self v vs))
    simp only [List.foldl_cons, List.map_cons, List.sum_cons]
    rw [if_pos hv, ih (fun w hw => h w (List.mem_cons_of_mem v hw))]
    ring

theorem pyMin_le_mem (l : List ℚ) (v : ℚ) (hv : v ∈ l) : pyMin l ≤ v := by
  have key : ∀ (xs : List ℚ) (a : ℚ),
      (∀ w ∈ xs, xs.foldl min a ≤ w) ∧ xs.foldl min a ≤ a := by
    intro xs
    induction xs with
    | nil => exact fun a => ⟨by simp, le_refl a⟩
    | cons x xs ih =>
      intro a
      simp only [List.foldl_cons]
      refine ⟨?_, le_trans (ih (min a x)).2 (min_le_left a x)⟩
      intro w hw
      rcases List.mem_cons.1 hw with hw | hw
      · subst hw
        exact le_trans (ih (min a w)).2 (min_le_right a w)
      · exact (ih (min a x)).1 w hw
  cases l with
  | nil => simp at hv
  | cons x xs =>
    rcases List.mem_cons.1 hv with hv | hv
    · subst hv
      exact (key xs v).2
    · exact (key xs x).1 v hv

theorem le_pyMax_mem (l : List ℚ) (v : ℚ) (hv : v ∈ l) : v ≤ pyMax l := by
  have key : ∀ (xs : List ℚ) (a : ℚ),
      (∀ w ∈ xs, w ≤ xs.foldl max a) ∧ a ≤ xs.foldl max a := by
    intro xs
    induction xs with
    | nil => exact fun a => ⟨by simp, le_refl a⟩
    | cons x xs ih =>
      intro a
      simp only [List.foldl_cons]
      refine ⟨?_, le_trans (le_max_left a x) (ih (max a x)).2⟩
      intro w hw
      rcases List.mem_cons.1 hw with hw | hw
      · subst hw
        exact le_trans (le_max_right a w) (ih (max a w)).2
      · exact (ih (max a x)).1 w hw
  cases l with
  | nil => simp at hv
  | cons x xs =>
    rcases List.mem_cons.1 hv with hv | hv
    · subst hv
      exact (key xs v).2
    · exact (key xs x).1 v hv

theorem core_leverage_vals_eq (g : SimpleNet) :
    (g.nodes.map (fun u => (u, core_leverage_raw g u))).map (fun p => p.2)
      = core_leverage_vals g := by
  rw [List.map_map]
  rfl

/-- C8 amended: in the service engine, a node with no neighbors scores 0 and
any other node scores the mean over its neighbors of
(len(neighbors) − nxDegree(neighbor)) / (len(neighbors) + nxDegree(neighbor))
— in particular a degree-1 node scores its single ratio, not 0, and no
rescaling is applied; the core implementation zeroes nodes with at most one
neighbor and, when normalizing with a non-degenerate value range, min-max
rescales every score into [0, 1]. -/
theorem leverage_amended (g : SimpleNet) (u : String) (hu : u ∈ g.nodes)
    (hmm : pyMin (core_leverage_vals g) < pyMax (core_leverage_vals g))
    (p : String × ℚ) (hp : p ∈ core_leverage g true) :
    leverage_centrality g u =
      (if (neighbors g u).length = 0 then 0
       else ((neighbors g u).map (fun v =>
          (((neighbors g u).length : ℚ) - (nxDegree g v : ℚ)) /
          (((neighbors g u).length : ℚ) + (nxDegree g v : ℚ)))).sum
            / ((neighbors g u).length : ℚ)) ∧
    ((neighbors g u).length ≤ 1 → core_leverage_raw g u = 0) ∧
    0 ≤ p.2 ∧ p.2 ≤ 1 := by
  refine ⟨?_, ?_, ?_⟩
  · by_cases h0 : (neighbors g u).length = 0
    · simp [leverage_centrality, h0]
    · rw [if_neg h0]
      simp only [leverage_centrality]
      rw [if_neg h0]
      rw [leverage_foldl_sum g _ _
        (fun v hv => nxDegree_pos_of_mem_neighbors g u v hu hv) 0]
      rw [zero_add]
  · intro h1
    simp [core_leverage_raw, h1]
  · unfold core_leverage at hp
    rw [if_pos rfl] at hp
    rw [core_leverage_vals_eq] at hp
    rw [if_pos hmm] at hp
    rcases List.mem_map.1 hp with ⟨q, hq, hpq⟩
    have hq2 : q.2 ∈ core_leverage_vals g := by
      rw [← core_leverage_vals_eq]
      exact List.mem_map_of_mem (fun p => p.2) hq
    have hlo := pyMin_le_mem _ _ hq2
    have hhi := le_pyMax_mem _ _ hq2
    have hpos : (0 : ℚ) < pyMax (core_leverage_vals g) - pyMin (core_leverage_vals g) :=
      sub_pos.2 hmm
    constructor
    · rw [← hpq]
      exact div_nonneg (sub_nonneg.2 hlo) (le_of_lt hpos)
    · rw [← hpq]
      rw [div_le_one hpos]
      exact sub_le_sub_right hhi _

/-- C8 counterexample: on the path A - B - C the engine gives node A —
degree 1 — leverage (1−2)/(1+2) = −1/3, not 0; and, the `normalized`
parameter being ignored, −1/3 also escapes the claimed min-max range [0,1]. -/
theorem leverage_counterexample :
    nxDegree pathABC "A" = 1 ∧
    leverage_centrality pathABC "A" = -(1/3) ∧
    leverage_centrality pathABC "A" ≠ 0 ∧
    ¬ 0 ≤ leverage_centrality pathABC "A" := by
  have h : leverage_centrality pathABC "A" = -(1/3) := by
    simp [leverage_centrality, neighbors, isAdjacent, nxDegree, pathABC]
    norm_num
  refine ⟨?_, h, ?_, ?_⟩
  · simp [nxDegree, neighbors, isAdjacent, pathABC]
  · rw [h]; norm_num
  · rw [h]; norm_num

/-- Witness for the C8 amended theorem on the path A - B - C at node A and
the normalized core entry of node B. -/
theorem leverage_amended_witness :
    ("A" ∈ pathABC.nodes) ∧
    (pyMin (core_leverage_vals pathABC) < pyMax (core_leverage_vals pathABC)) ∧
    (("B", (1 : ℚ)) ∈ core_leverage pathABC true) ∧
    (leverage_centrality pathABC "A" =
      (if (neighbors pathABC "A").length = 0 then 0
       else ((neighbors pathABC "A").map (fun v =>
          (((neighbors pathABC "A").length : ℚ) - (nxDegree pathABC v : ℚ)) /
          (((neighbors pathABC "A").length : ℚ) + (nxDegree pathABC v : ℚ)))).sum
            / ((neighbors pathABC "A").length : ℚ)) ∧
    ((neighbors pathABC "A").length ≤ 1 → core_leverage_raw pathABC "A" = 0) ∧
    0 ≤ ("B", (1 : ℚ)).2 ∧ ("B", (1 : ℚ)).2 ≤ 1) := by
  have h1 : pyMin (core_leverage_vals pathABC) < pyMax (core_leverage_vals pathABC) := by
    simp [core_leverage_vals, core_leverage_raw, pyMin, pyMax,
      neighbors, isAdjacent, nxDegree, pathABC]
    norm_num
  have h2 : ("B", (1 : ℚ)) ∈ core_leverage pathABC true := by
    have hcl : core_leverage pathABC true = [("A", 0), ("B", 1), ("C", 0)] := by
      simp [core_leverage, core_leverage_raw, core_leverage_vals, pyMin, pyMax,
        neighbors, isAdjacent, nxDegree, pathABC]
      norm_num
    rw [hcl]
    simp
  exact ⟨by decide, h1, h2,
    leverage_amended pathABC "A" (by decide) h1 ("B", (1 : ℚ)) h2⟩

theorem pagerankStep_sum (n : ℕ) (hn : 0 < n) (W : Fin n → Fin n → ℚ) (alpha : ℚ)
    (x : Fin n → ℚ) (hx : (∑ v, x v) = 1) :
    (∑ v, pagerankStep n W alpha x v) = 1 := by
  have hn' : ((n : ℚ)) ≠ 0 := Nat.cast_ne_zero.2 hn.ne'
  have hcard : (Finset.univ : Finset (Fin n)).card = n := Finset.card_fin n
  unfold pagerankStep
  rw [Finset.sum_add_distrib, Finset.sum_add_distrib]
  have h3 : (∑ _v : Fin n, (1 - alpha) * (1 / (n : ℚ))) = 1 - alpha := by
    rw [Finset.sum_const, hcard, nsmul_eq_mul]
    field_simp
  have h2 : (∑ _v : Fin n,
      alpha * (∑ u, if outWeight n W u = 0 then x u else 0) * (1 / (n : ℚ)))
      = alpha * (∑ u, if outWeight n W u = 0 then x u else 0) := by
    rw [Finset.sum_const, hcard, nsmul_eq_mul]
    field_simp
  have h1 : (∑ v : Fin n,
      alpha * (∑ u, x u * (if outWeight n W u = 0 then 0 else W u v / outWeight n W u)))
      = alpha * (∑ u, x u * (if outWeight n W u = 0 then 0 else 1)) := by
    rw [← Finset.mul_sum]
    congr 1
    rw [Finset.sum_comm]
    refine Finset.sum_congr rfl ?_
    intro u _
    rw [← Finset.mul_sum]
    congr 1
    by_cases h : outWeight n W u = 0
    · simp [h]
    · rw [if_neg h]
      rw [Finset.sum_ite_of_false (fun _ _ => h) _]
      rw [← Finset.sum_div]
      rw [show (∑ v, W u v) = outWeight n W u from rfl]
      exact div_self h
  rw [h1, h2, h3]
  have hsplit : (∑ u, x u * (if outWeight n W u = 0 then 0 else 1))
      + (∑ u, if outWeight n W u = 0 then x u else 0) = ∑ u, x u := by
    rw [← Finset.sum_add_distrib]
    refine Finset.sum_congr rfl ?_
    intro u _
    by_cases h : outWeight n W u = 0 <;> simp [h]
  have halpha : alpha * (∑ u, x u * (if outWeight n W u = 0 then 0 else 1))
      + alpha * (∑ u, if outWeight n W u = 0 then x u else 0) = alpha := by
    rw [← mul_add, hsplit, hx, mul_one]
  linarith [halpha]

theorem pagerankLoop_sum (n : ℕ) (hn : 0 < n) (W : Fin n → Fin n → ℚ) (alpha tol : ℚ) :
    ∀ (fuel : ℕ) (x : Fin n → ℚ), (∑ v, x v) = 1 →
      ∀ y, pagerankLoop n W alpha tol fuel x = some y → (∑ v, y v) = 1 := by
  intro fuel
  induction fuel with
  | zero => intro x hx y hy; simp [pagerankLoop] at hy
  | succ f ih =>
    intro x hx y hy
    simp only [pagerankLoop] at hy
    split at hy
    · cases hy
      exact pagerankStep_sum n hn W alpha x hx
    · exact ih (pagerankStep n W alpha x) (pagerankStep_sum n hn W alpha x hx) y hy

theorem pagerank_sum (n : ℕ) (hn : 0 < n) (W : Fin n → Fin n → ℚ) (alpha : ℚ)
    (max_iter : ℕ) (tol : ℚ) (y : Fin n → ℚ)
    (hy : pagerank n W alpha max_iter tol = some y) : (∑ v, y v) = 1 := by
  have hn' : ((n : ℚ)) ≠ 0 := Nat.cast_ne_zero.2 hn.ne'
  refine pagerankLoop_sum n hn W alpha tol max_iter (fun _ => 1 / (n : ℚ)) ?_ y hy
  rw [Finset.sum_const, Finset.card_fin, nsmul_eq_mul]
  field_simp

theorem pagerankLoop_fix (n : ℕ) (W : Fin n → Fin n → ℚ) (alpha tol : ℚ)
    (x : Fin n → ℚ) (fuel : ℕ)
    (hfix : pagerankStep n W alpha x = x)
    (htol : (0 : ℚ) < n * tol) :
    pagerankLoop n W alpha tol (fuel + 1) x = some x := by
  simp only [pagerankLoop]
  rw [hfix]
  rw [if_pos (by simpa using htol)]

theorem pagerank_two_node :
    pagerank 2 W2 (17/20) 100 (1/1000000) = some (fun _ => (1/2 : ℚ)) := by
  have hinit : (fun _ : Fin 2 => 1 / ((2 : ℕ) : ℚ)) = (fun _ : Fin 2 => (1/2 : ℚ)) := by
    funext v
    norm_num
  have hfix : pagerankStep 2 W2 (17/20) (fun _ => (1/2 : ℚ)) = (fun _ => (1/2 : ℚ)) := by
    funext v
    fin_cases v <;>
      simp [pagerankStep, outWeight, W2, Fin.sum_univ_two, Fin.isValue] <;> norm_num
  rw [pagerank, hinit, show (100 : ℕ) = 99 + 1 from rfl,
    pagerankLoop_fix 2 W2 (17/20) (1/1000000) (fun _ => (1/2 : ℚ)) 99 hfix (by norm_num)]

/-- C3 counterexample: on the symmetric 2-node graph `nx.pagerank` converges
to the exact distribution (1/2, 1/2) (damping 0.85, tolerance 1e-6), and the
core pagerank path with normalize=true rescales it by its maximum, returning
scores [1, 1] whose sum is 2 — not approximately 1 within any tolerance in
play. -/
theorem pagerank_normalize_counterexample :
    core_pagerank_centrality 2 W2 true (17/20) 100 (1/1000000) = some [1, 1] ∧
    (([1, 1] : List ℚ)).sum = 2 ∧
    ¬ |(2 : ℚ) - 1| ≤ 2 * (1/1000000) := by
  refine ⟨?_, by norm_num, by norm_num⟩
  rw [core_pagerank_centrality, pagerank_two_node]
  simp [core_max_rescale, pyMax, List.finRange]

/-- C3 amended: the raw PageRank output is probability-normalized — whenever
the power iteration converges its scores sum to exactly 1 (in exact
arithmetic) — and the services engine returns it unchanged for either value
of the `normalized` flag; the core path without normalization also returns
it with sum 1. With normalize=true the core path max-rescales, after which
the claimed sum property fails (see the counterexample). -/
theorem pagerank_sum_amended (n : ℕ) (W : Fin n → Fin n → ℚ) (alpha : ℚ)
    (max_iter : ℕ) (tol : ℚ) (y : Fin n → ℚ) (hn : 0 < n)
    (hy : pagerank n W alpha max_iter tol = some y) :
    (∑ v, y v) = 1 ∧
    core_pagerank_centrality n W false alpha max_iter tol
      = some ((List.finRange n).map y) ∧
    ((List.finRange n).map y).sum = 1 ∧
    services_pagerank_centrality n W true alpha max_iter tol
      = services_pagerank_centrality n W false alpha max_iter tol := by
  have hsum := pagerank_sum n hn W alpha max_iter tol y hy
  refine ⟨hsum, ?_, ?_, rfl⟩
  · rw [core_pagerank_centrality, hy]
    rfl
  · rw [← List.ofFn_eq_map, List.sum_ofFn]
    exact hsum

/-- Witness for C3 amended on the 2-node graph. -/
theorem pagerank_sum_amended_witness :
    (0 < 2) ∧
    pagerank 2 W2 (17/20) 100 (1/1000000) = some (fun _ => (1/2 : ℚ)) ∧
    ((∑ v : Fin 2, (fun _ => (1/2 : ℚ)) v) = 1 ∧
     core_pagerank_centrality 2 W2 false (17/20) 100 (1/1000000)
       = some ((List.finRange 2).map (fun _ => (1/2 : ℚ))) ∧
     ((List.finRange 2).map (fun _ => (1/2 : ℚ))).sum = 1 ∧
     services_pagerank_centrality 2 W2 true (17/20) 100 (1/1000000)
       = services_pagerank_centrality 2 W2 false (17/20) 100 (1/1000000)) :=
  ⟨by norm_num, pagerank_two_node,
    pagerank_sum_amended 2 W2 (17/20) 100 (1/1000000) (fun _ => (1/2 : ℚ))
      (by norm_num) pagerank_two_node⟩

theorem U2_mul_U2 : U2 * U2 = (2 : ℝ) • 1 := by
  ext i j
  fin_cases i <;> fin_cases j <;>
    simp [U2, Matrix.mul_apply, Fin.sum_univ_two] <;> norm_num

theorem U2_inv : U2⁻¹ = (1/2 : ℝ) • U2 := by
  apply Matrix.inv_eq_right_inv
  rw [Matrix.mul_smul, U2_mul_U2, smul_smul]
  norm_num

theorem U2_right_inv : U2 * ((1/2 : ℝ) • U2) = 1 := by
  rw [Matrix.mul_smul, U2_mul_U2, smul_smul]
  norm_num

theorem U2_left_inv : ((1/2 : ℝ) • U2) * U2 = 1 := by
  rw [Matrix.smul_mul, U2_mul_U2, smul_smul]
  norm_num

theorem isUnit_U2 : IsUnit U2 :=
  ⟨⟨U2, (1/2 : ℝ) • U2, U2_right_inv, U2_left_inv⟩, rfl⟩

theorem conj_eq_A2 : U2 * D2 * U2⁻¹ = A2 := by
  rw [U2_inv]
  ext i j
  fin_cases i <;> fin_cases j <;>
    simp [U2, D2, A2, Matrix.mul_apply, Fin.sum_univ_two, Matrix.diagonal,
      Matrix.vecHead, Matrix.vecTail] <;> norm_num

theorem exp_A2_00 : NormedSpace.exp ℝ A2 0 0 = (Real.exp 1 + Real.exp (-1)) / 2 := by
  rw [← conj_eq_A2, Matrix.exp_conj ℝ U2 D2 isUnit_U2, U2_inv]
  rw [D2, Matrix.exp_diagonal]
  simp [U2, Matrix.mul_apply, Fin.sum_univ_two, Matrix.diagonal,
    Matrix.vecHead, Matrix.vecTail, ← Real.exp_eq_exp_ℝ]
  ring

/-- C4: on the 2-node single-edge graph the service implementation scores
every node exp(0) = 1 (np.exp is element-wise), while the diagonal of the
matrix exponential of the adjacency matrix — the claimed and textbook
subgraph centrality, as also computed by nx.subgraph_centrality in the core
module — is cosh(1) = (e + 1/e)/2 at each node, which is not 1. -/
theorem subgraph_code_bug :
    services_subgraph_scores 2 A2 = (fun _ => 1) ∧
    NormedSpace.exp ℝ A2 0 0 = (Real.exp 1 + Real.exp (-1)) / 2 ∧
    NormedSpace.exp ℝ A2 0 0 ≠ 1 := by
  refine ⟨?_, exp_A2_00, ?_⟩
  · funext i
    fin_cases i <;> simp [services_subgraph_scores, A2]
  · rw [exp_A2_00]
    have h1 := Real.exp_one_gt_d9
    have h2 := Real.exp_pos (-1)
    intro h
    linarith
